import Mathlib

/-
Verification of the Penman transcription pipeline: shallow embeddings of the
segmentation planner, model cache, progress reporting, segment transcriber,
orchestrator cleanup, batch runner, YouTube error classifier, metadata cache,
retry sleeps and the subtitle clock formatter, with theorems about each.
-/

namespace Penman

/-! ## Segmentation planner (transcription_service.py) -/

def ADAPTIVE_MIN_SEGMENT_SECONDS : ℤ := 1

def ADAPTIVE_MAX_SEGMENT_SECONDS : ℤ := 600

def ADAPTIVE_SKIP_SEGMENT_SECONDS : ℚ := 15 * 60

def ADAPTIVE_MEDIUM_AUDIO_SECONDS : ℚ := 60 * 60

def ADAPTIVE_LONG_AUDIO_SECONDS : ℚ := 2 * 60 * 60

/-- Mirror of `_SegmentationPlan` (a frozen dataclass). -/
structure SegmentationPlan where
  should_segment : Bool
  effective_segment_seconds : ℤ
  reason : String
deriving Repr, DecidableEq

/-- Mirror of `_clamp_segment_seconds`: clamp to [1, 600]. -/
def clampSegmentSeconds (value : ℤ) : ℤ :=
  max ADAPTIVE_MIN_SEGMENT_SECONDS (min ADAPTIVE_MAX_SEGMENT_SECONDS value)

/-- Mirror of `_build_segmentation_plan`.  The probed duration is `none` when
unknown, otherwise a rational number of seconds; the requested chunk length is
an integer number of seconds; the device is the resolved device string. -/
def buildSegmentationPlan (sourceDurationSeconds : Option ℚ)
    (requestedSegmentSeconds : ℤ) (computeDevice : String) : SegmentationPlan :=
  let requested := clampSegmentSeconds requestedSegmentSeconds
  match sourceDurationSeconds with
  | none =>
      { should_segment := true
        effective_segment_seconds := requested
        reason := "duration_unknown" }
  | some d =>
      if d ≤ ADAPTIVE_SKIP_SEGMENT_SECONDS then
        { should_segment := false
          effective_segment_seconds := requested
          reason := "short_input_skip_segmentation" }
      else
        let effective :=
          if computeDevice = "cpu" then
            if ADAPTIVE_LONG_AUDIO_SECONDS ≤ d then min requested 90
            else if ADAPTIVE_MEDIUM_AUDIO_SECONDS ≤ d then min requested 120
            else requested
          else
            if ADAPTIVE_LONG_AUDIO_SECONDS ≤ d then max requested 240
            else if ADAPTIVE_MEDIUM_AUDIO_SECONDS ≤ d then max requested 180
            else requested
        let effective2 := clampSegmentSeconds effective
        if effective2 ≠ requested then
          { should_segment := true
            effective_segment_seconds := effective2
            reason := "adaptive_segment_length_adjusted" }
        else
          { should_segment := true
            effective_segment_seconds := effective2
            reason := "requested_segment_length" }

/-! ## String helpers shared by the embeddings -/

/-- Python substring test `sub in hay` on character lists. -/
def listContainsSub (sub : List Char) : List Char → Bool
  | [] => sub.isEmpty
  | c :: rest => sub.isPrefixOf (c :: rest) || listContainsSub sub rest

/-- Python `sub in hay` on strings. -/
def strContains (hay sub : String) : Bool := listContainsSub sub.data hay.data

/-- Mirror of `_contains_any`: `any(token in haystack for token in needles)`. -/
def containsAny (hay : String) (needles : List String) : Bool :=
  needles.any (fun n => strContains hay n)

/-- Python `str.lower()`.  All recognised patterns and the inputs of interest
are ASCII, where `Char.toLower` and Python agree. -/
def pyLower (s : String) : String := String.mk (s.data.map Char.toLower)

/-! ## YouTube error classifier (youtube_service.py) -/

/-- Mirror of `_ErrorClassification` (a frozen dataclass). -/
structure ErrorClassification where
  category : String
  summary : String
  hint : String
  retry_same_strategy : Bool
  try_next_strategy : Bool
deriving Repr, DecidableEq

def configurationNeedles : List String :=
  ["ffmpeg", "ffprobe", "postprocessing",
   "please install or provide the path", "unable to obtain file audio codec"]

def authNeedles : List String :=
  ["sign in to confirm your age", "log in to confirm your age",
   "login required", "age-restricted", "age restricted", "members-only",
   "members only", "this video may be inappropriate"]

def geoNeedles : List String :=
  ["not available in your country", "not available in your region",
   "geo-restricted", "geo restricted", "blocked in your country"]

def unavailableNeedles : List String :=
  ["private video", "this video is private", "video unavailable",
   "this video is unavailable", "has been removed",
   "video is no longer available", "copyright", "terminated"]

def rateLimitNeedles : List String :=
  ["http error 429", "too many requests", "rate limit",
   "temporarily blocked", "quota exceeded"]

def networkNeedles : List String :=
  ["timed out", "timeout", "network is unreachable",
   "temporary failure in name resolution", "name or service not known",
   "connection reset", "connection aborted", "connection refused",
   "remote end closed connection", "http error 408", "proxy error"]

def serverNeedles : List String :=
  ["http error 500", "http error 502", "http error 503", "http error 504",
   "internal server error", "bad gateway", "service unavailable"]

def strategyNeedles : List String :=
  ["drm", "requested format is not available",
   "requested format not available", "no video formats", "no formats found",
   "only images are available", "no longer supported", "configuration error",
   "nsig extraction failed", "signature extraction failed"]

/-- The default classification returned when no pattern matches. -/
def unknownClassification : ErrorClassification :=
  { category := "unknown"
    summary := "Unclassified yt-dlp error."
    hint := "Will try next strategy when available."
    retry_same_strategy := false
    try_next_strategy := true }

/-- Mirror of `_classify_error`: the cascade of substring checks over the
lower-cased diagnostic text, in source order. -/
def classifyError (errorText : String) : ErrorClassification :=
  let lower := pyLower errorText
  if containsAny lower configurationNeedles then
    { category := "configuration"
      summary := "Local yt-dlp/ffmpeg setup is not ready."
      hint := "Verify ffmpeg/ffprobe in PATH and update yt-dlp."
      retry_same_strategy := false
      try_next_strategy := false }
  else if containsAny lower authNeedles then
    { category := "auth_or_age_restriction"
      summary := "YouTube requires login or age verification."
      hint := "Use a public video or configure yt-dlp cookies."
      retry_same_strategy := false
      try_next_strategy := false }
  else if containsAny lower geoNeedles then
    { category := "geo_restricted"
      summary := "Video is blocked in this region."
      hint := "Use a video available in your region."
      retry_same_strategy := false
      try_next_strategy := false }
  else if containsAny lower unavailableNeedles then
    { category := "video_unavailable"
      summary := "Video is unavailable, private, or removed."
      hint := "Verify the URL is public and playable in browser."
      retry_same_strategy := false
      try_next_strategy := false }
  else if containsAny lower rateLimitNeedles then
    { category := "transient_rate_limit"
      summary := "YouTube rate-limited this request."
      hint := "Retrying with backoff may succeed."
      retry_same_strategy := true
      try_next_strategy := true }
  else if containsAny lower networkNeedles then
    { category := "transient_network"
      summary := "Temporary network/connectivity issue."
      hint := "Retrying with backoff may recover."
      retry_same_strategy := true
      try_next_strategy := true }
  else if containsAny lower serverNeedles then
    { category := "transient_server"
      summary := "Temporary YouTube/server-side problem."
      hint := "Retrying with backoff may recover."
      retry_same_strategy := true
      try_next_strategy := true }
  else if containsAny lower strategyNeedles then
    { category := "strategy_or_format"
      summary := "Current format/client strategy is incompatible."
      hint := "Trying a different strategy may work."
      retry_same_strategy := false
      try_next_strategy := true }
  else if strContains lower "http error 403" || strContains lower "forbidden" then
    { category := "access_denied"
      summary := "Access denied for current strategy."
      hint := "A different strategy may work; otherwise verify video access."
      retry_same_strategy := false
      try_next_strategy := true }
  else unknownClassification

/-- True when the lower-cased text matches any of the recognised patterns of
`_classify_error` (the disjunction of all its guards, in source order). -/
def matchesAnyKnown (errorText : String) : Bool :=
  let lower := pyLower errorText
  containsAny lower configurationNeedles
    || containsAny lower authNeedles
    || containsAny lower geoNeedles
    || containsAny lower unavailableNeedles
    || containsAny lower rateLimitNeedles
    || containsAny lower networkNeedles
    || containsAny lower serverNeedles
    || containsAny lower strategyNeedles
    || strContains lower "http error 403"
    || strContains lower "forbidden"

/-! ## Model cache (transcription_service.py) -/

/-- Observable actions of the cache: running the memory-reclamation hook
(`_release_compute_memory`) and loading a model (`whisper.load_model`,
modelled as minting a fresh instance id). -/
inductive CacheEvent
  | released
  | loaded (modelId : ℕ)
deriving Repr, DecidableEq

/-- The module-level cache globals `_MODEL_CACHE_KEY` and
`_MODEL_CACHE_INSTANCE`, a counter minting fresh model instance ids, and the
trace of observable actions. -/
structure ModelCacheState where
  cacheKey : Option (String × String)
  cacheInstance : Option ℕ
  nextId : ℕ
  events : List CacheEvent
deriving Repr, DecidableEq

structure AcquireResult where
  model : ℕ
  cacheHit : Bool
deriving Repr, DecidableEq

/-- Mirror of `_get_or_load_model` (the body runs under the cache lock). -/
def getOrLoadModel (modelName computeDevice : String) (reuseModel : Bool)
    (st : ModelCacheState) : AcquireResult × ModelCacheState :=
  let cacheKey := (modelName, computeDevice)
  if reuseModel = true ∧ st.cacheInstance ≠ none ∧ st.cacheKey = some cacheKey then
    ({ model := st.cacheInstance.getD 0, cacheHit := true }, st)
  else
    let st1 :=
      if reuseModel = true ∧ st.cacheInstance ≠ none then
        { st with cacheInstance := none, cacheKey := none,
                  events := st.events ++ [CacheEvent.released] }
      else st
    let modelId := st1.nextId
    let st2 := { st1 with nextId := st1.nextId + 1,
                          events := st1.events ++ [CacheEvent.loaded modelId] }
    let st3 :=
      if reuseModel then
        { st2 with cacheInstance := some modelId, cacheKey := some cacheKey }
      else st2
    ({ model := modelId, cacheHit := false }, st3)

/-- Mirror of `clear_model_cache`. -/
def clearModelCache (st : ModelCacheState) : ModelCacheState :=
  { st with cacheInstance := none, cacheKey := none,
            events := st.events ++ [CacheEvent.released] }

/-! ## Progress reporting (transcription_service.py, youtube_service.py, gui.py) -/

/-- Mirror of `_report` in transcription_service.py: the list of callback
invocations it performs (`none` callback: none; otherwise one call with the
progress bounded into [0, 100]). -/
def transcriptionReport (callbackPresent : Bool) (message : String)
    (progress : ℚ) : List (String × ℚ) :=
  if callbackPresent then [(message, max 0 (min 100 progress))] else []

/-- Mirror of `_report` in youtube_service.py (early-return formulation). -/
def youtubeReport (callbackPresent : Bool) (message : String)
    (progress : ℚ) : List (String × ℚ) :=
  if callbackPresent = false then []
  else [(message, max 0 (min 100 progress))]

/-- The batch-global progress computed by `update_item_progress` in gui.py:
`(((index - 1) * 100.0) + bounded) / total_files`. -/
def updateItemProgressGlobal (index total : ℕ) (progress : ℚ) : ℚ :=
  let bounded := max 0 (min 100 progress)
  (((index : ℚ) - 1) * 100 + bounded) / (total : ℚ)

/-! ## Orchestrator cleanup (run_transcription's try/finally) -/

/-- The temporary segment directory: `none` when absent, otherwise the list
of segment files inside it. -/
structure TempFS where
  tempDir : Option (List String)
deriving Repr, DecidableEq

/-- The three ways the body of `run_transcription` can exit: normal return,
a raised error (TranscriptionError or any other exception), and
cancellation (TranscriptionCancelled). -/
inductive RunOutcome
  | ok (outputPath : String)
  | err (message : String)
  | cancelled
deriving Repr, DecidableEq

/-- Mirror of the `try/finally` skeleton of `run_transcription`: the try body
is abstracted as an arbitrary state transformer (covering every exit path);
the `finally` block runs `shutil.rmtree(temp_dir, ignore_errors=True)` when
`keep_segments` is false and the directory exists.  (The metrics bookkeeping
performed in the same `finally` block does not touch the filesystem and is
omitted.) -/
def runTranscription (keepSegments : Bool)
    (body : TempFS → RunOutcome × TempFS) (fs : TempFS) : RunOutcome × TempFS :=
  let r := body fs
  let fs2 :=
    if keepSegments = false ∧ r.2.tempDir ≠ none then { tempDir := none }
    else r.2
  (r.1, fs2)

/-! ## Batch runner (gui.py _run_worker) -/

/-- How running one queue item ends: a produced output path, a raised error
message, or cancellation (the cancel flag set at the loop head or a
TranscriptionCancelled escaping the item). -/
inductive ItemOutcome
  | ok (outputPath : String)
  | err (message : String)
  | cancelled
deriving Repr, DecidableEq

/-- End state of `_run_worker`: either the batch-done event carrying outputs,
failures, the pending items and the stopped-on-error flag, or the cancelled
event. -/
inductive WorkerResult
  | batchDone (outputs : List String) (failures : List (String × String))
      (pendingItems : List String) (stoppedOnError : Bool)
  | cancelledRun
deriving Repr, DecidableEq

/-- The item loop of `_run_worker`: `remaining` is the unprocessed suffix of
the queue, `idx` the 1-based index of its first element, `outputs` and
`failures` the accumulators.  On error under run_policy "stop" the loop
breaks with the rest of the queue as pending; otherwise it continues. -/
def runWorkerGo (runPolicy : String) (outcome : ℕ → ItemOutcome) :
    List String → ℕ → List String → List (String × String) → WorkerResult
  | [], _, outputs, failures => WorkerResult.batchDone outputs failures [] false
  | item :: rest, idx, outputs, failures =>
      match outcome idx with
      | ItemOutcome.cancelled => WorkerResult.cancelledRun
      | ItemOutcome.ok path =>
          runWorkerGo runPolicy outcome rest (idx + 1) (outputs ++ [path]) failures
      | ItemOutcome.err msg =>
          let failures2 := failures ++ [(item, msg)]
          if runPolicy = "stop" then
            WorkerResult.batchDone outputs failures2 rest true
          else runWorkerGo runPolicy outcome rest (idx + 1) outputs failures2

/-- Mirror of `_run_worker` over a queue whose item runs are abstracted by
`outcome` (indexed by the 1-based queue position). -/
def runWorker (inputFiles : List String) (outcome : ℕ → ItemOutcome)
    (runPolicy : String) : WorkerResult :=
  runWorkerGo runPolicy outcome inputFiles 1 [] []

def ItemOutcome.isOk : ItemOutcome → Bool
  | ItemOutcome.ok _ => true
  | _ => false

def ItemOutcome.isErr : ItemOutcome → Bool
  | ItemOutcome.err _ => true
  | _ => false

/-- The spec's three-item scenario: item 2 always fails, items 1 and 3
succeed. -/
def exampleQueue : List String := ["item1", "item2", "item3"]

def exampleOutcome : ℕ → ItemOutcome := fun idx =>
  if idx = 1 then ItemOutcome.ok "out1"
  else if idx = 2 then ItemOutcome.err "boom"
  else ItemOutcome.ok "out3"

/-- Number of queue positions `idx, idx+1, …, idx+n-1` whose outcome
satisfies `p` (an observable used to state the batch-summary counts). -/
def countOutcomesFrom (p : ItemOutcome → Bool) (outcome : ℕ → ItemOutcome) :
    ℕ → ℕ → ℕ
  | _, 0 => 0
  | idx, n + 1 =>
      (if p (outcome idx) then 1 else 0) + countOutcomesFrom p outcome (idx + 1) n

/-! ## Retry backoff and the cancellable sleep (youtube_service.py) -/

def MAX_DOWNLOAD_RETRIES_PER_STRATEGY : ℕ := 2

def MAX_METADATA_RETRIES_PER_CLIENT : ℕ := 1

def BACKOFF_BASE_SECONDS : ℚ := 1.2

def BACKOFF_MAX_SECONDS : ℚ := 8.0

/-- Mirror of `_retry_delay_seconds`. -/
def retryDelaySeconds (retryIdx : ℕ) : ℚ :=
  min BACKOFF_MAX_SECONDS (BACKOFF_BASE_SECONDS * 2 ^ retryIdx)

/-- Observable events of a sleeping loop: a cancellation-flag check, and an
actual sleep of the given number of milliseconds. -/
inductive SleepEv
  | check
  | sleep (ms : ℕ)
deriving Repr, DecidableEq

/-- The loop of `_sleep_with_cancel`, discretised to whole milliseconds of
remaining time: each iteration checks the cancel flag, returns if no time
remains, and otherwise sleeps `min(0.2 s, remaining)`. -/
def sleepTicksGo : ℕ → List SleepEv
  | 0 => [SleepEv.check]
  | n + 1 =>
      SleepEv.check :: SleepEv.sleep (min 200 (n + 1))
        :: sleepTicksGo (n + 1 - min 200 (n + 1))
termination_by n => n
decreasing_by omega

/-- Mirror of `_sleep_with_cancel seconds`: immediate return with no events
when no positive time is requested, else the check/sleep slicing loop. -/
def sleepWithCancelTrace (ms : ℕ) : List SleepEv :=
  if ms = 0 then [] else sleepTicksGo ms

/-- Seconds (rational) to whole milliseconds, the granularity of the traces. -/
def secondsToMs (q : ℚ) : ℕ := (⌊q * 1000⌋).toNat

/-- The sleep performed between download retries in `download_audio`:
`_sleep_with_cancel(_retry_delay_seconds(retry_idx), cancel_event)`. -/
def downloadRetrySleepTrace (retryIdx : ℕ) : List SleepEv :=
  sleepWithCancelTrace (secondsToMs (retryDelaySeconds retryIdx))

/-- The sleep performed between metadata-fetch retries in `fetch_video_info`:
a single plain `time.sleep(_retry_delay_seconds(retry_idx))` with no
cancellation check (the function takes no cancel event at all). -/
def metadataRetrySleepTrace (retryIdx : ℕ) : List SleepEv :=
  [SleepEv.sleep (secondsToMs (retryDelaySeconds retryIdx))]

/-- Executes a sleep trace against a cancel flag that becomes set at time
`cancelAt` (ms): a check at or after that time raises (returning the raise
time); sleeps advance the clock.  Returns `none` when the trace completes
without raising. -/
def runSleepTrace (cancelAt : ℕ) : List SleepEv → ℕ → Option ℕ
  | [], _ => none
  | SleepEv.check :: rest, now =>
      if cancelAt ≤ now then some now else runSleepTrace cancelAt rest now
  | SleepEv.sleep s :: rest, now => runSleepTrace cancelAt rest (now + s)

/-! ## YouTube metadata cache (youtube_service.py) -/

/-- A Python value at the top level of a metadata dict: an immutable scalar
(number or string) or a reference to a mutable nested dict living on the
heap. -/
inductive PyVal
  | prim (z : ℤ)
  | str (s : String)
  | ref (addr : ℕ)
deriving Repr, DecidableEq

abbrev PyDict := List (String × PyVal)

abbrev Heap := List (ℕ × PyDict)

/-- In-place assignment `d[key] = v` to an existing key of a heap dict. -/
def setKeyInDict (d : PyDict) (key : String) (v : PyVal) : PyDict :=
  d.map (fun kv => if kv.1 = key then (kv.1, v) else kv)

/-- Mutation of the nested dict at `addr` through any reference to it. -/
def heapWrite (h : Heap) (addr : ℕ) (key : String) (v : PyVal) : Heap :=
  h.map (fun e => if e.1 = addr then (e.1, setKeyInDict e.2 key v) else e)

/-- A fully dereferenced view of a value, for observing what a dict contains
through its references. -/
inductive PyTree
  | prim (z : ℤ)
  | str (s : String)
  | dict (entries : List (String × PyTree))
  | dangling

/-- Dereference a value down to `fuel` levels of nesting. -/
def resolveVal (h : Heap) : ℕ → PyVal → PyTree
  | _, PyVal.prim z => PyTree.prim z
  | _, PyVal.str s => PyTree.str s
  | 0, PyVal.ref _ => PyTree.dangling
  | fuel + 1, PyVal.ref a =>
      match List.lookup a h with
      | none => PyTree.dangling
      | some d => PyTree.dict (d.map (fun kv => (kv.1, resolveVal h fuel kv.2)))

def resolveDict (h : Heap) (fuel : ℕ) (d : PyDict) : List (String × PyTree) :=
  d.map (fun kv => (kv.1, resolveVal h fuel kv.2))

/-- Python `str.strip()`, character-list based (ASCII whitespace). -/
def pyStrip (s : String) : String :=
  String.mk
    (((s.data.dropWhile Char.isWhitespace).reverse.dropWhile
        Char.isWhitespace).reverse)

/-- Mirror of `_normalize_cache_key`: `url.strip()`. -/
def normalizeCacheKey (url : String) : String := pyStrip url

/-- Python `dict(info)`: a fresh top-level mapping holding the same values —
nested references are copied by reference, not followed. -/
def shallowCopy (d : PyDict) : PyDict := d.map (fun kv => kv)

/-- The process-wide `_METADATA_CACHE`, modelled as a map from normalized
URL to (cached-at monotonic time, stored top-level dict). -/
abbrev MetadataCache := String → Option (ℚ × PyDict)

def emptyMetadataCache : MetadataCache := fun _ => none

/-- Modelled from the spec: the config constant
`YOUTUBE_INFO_CACHE_TTL_SECONDS` is imported by the YouTube service, but the
provided config source does not define it; the spec says only that metadata
is cached "with a time-to-live".  This mirrors the computation
`_METADATA_CACHE_TTL_SECONDS = max(0, int(YOUTUBE_INFO_CACHE_TTL_SECONDS))`
with the unknown config value as a parameter; theorems quantify over it. -/
def METADATA_CACHE_TTL_SECONDS (configTtl : ℤ) : ℕ := (max 0 configTtl).toNat

/-- Mirror of `_purge_expired_metadata_cache`: with TTL ≤ 0 the cache is
cleared entirely; otherwise entries strictly older than the TTL are dropped. -/
def purgeExpiredMetadataCache (ttl : ℕ) (now : ℚ) (c : MetadataCache) :
    MetadataCache :=
  if ttl = 0 then fun _ => none
  else fun k =>
    match c k with
    | none => none
    | some entry => if (ttl : ℚ) < now - entry.1 then none else some entry

/-- Mirror of `get_cached_video_info` (returns the read result and the cache
after the lazy purge). -/
def getCachedVideoInfo (ttl : ℕ) (now : ℚ) (url : String)
    (c : MetadataCache) : Option PyDict × MetadataCache :=
  let key := normalizeCacheKey url
  if key = "" then (none, c)
  else
    let c2 := purgeExpiredMetadataCache ttl now c
    match c2 key with
    | none => (none, c2)
    | some entry => (some (shallowCopy entry.2), c2)

/-- Mirror of `_set_cached_video_info`. -/
def setCachedVideoInfo (ttl : ℕ) (now : ℚ) (url : String) (info : PyDict)
    (c : MetadataCache) : MetadataCache :=
  let key := normalizeCacheKey url
  if key = "" then c
  else if ttl = 0 then c
  else
    let c2 := purgeExpiredMetadataCache ttl now c
    fun k => if k = key then some (now, shallowCopy info) else c2 k

/-- A stored metadata dict with one nested mutable dict on the heap. -/
def c6Heap0 : Heap := [(0, [("x", PyVal.prim 1)])]

def c6Info : PyDict := [("nested", PyVal.ref 0)]

/-- The heap after mutating the nested dict through a shared reference
(`returned["nested"]["x"] = 2` in Python terms). -/
def c6Heap1 : Heap := heapWrite c6Heap0 0 "x" (PyVal.prim 2)

/-! ## Python rounding (shared by the transcriber and the exporters) -/

/-- Python float `round` on rationals: round half to even. -/
def pythonRound (q : ℚ) : ℤ :=
  if q - ⌊q⌋ < 1/2 then ⌊q⌋
  else if 1/2 < q - ⌊q⌋ then ⌊q⌋ + 1
  else if 2 ∣ ⌊q⌋ then ⌊q⌋ else ⌊q⌋ + 1

/-- Python `round(x, 3)`. -/
def roundTo3 (q : ℚ) : ℚ := (pythonRound (q * 1000) : ℚ) / 1000

/-! ## Segment transcriber (transcription_service.py) -/

/-- One structured sub-segment of the model's output, after the defaulting
float conversions of the source (`start` defaults to 0.0 and `end` to
`start` for missing or malformed values). -/
structure RawSeg where
  text : String
  startSec : ℚ
  endSec : ℚ
deriving Repr, DecidableEq

/-- The model's result dict: `text`, `language` and `segments`. -/
structure ModelOut where
  rawText : String
  language : Option String
  rawSegments : List RawSeg
deriving Repr, DecidableEq

/-- How `model.transcribe` behaves on a given 1-based segment index: a
result, or a raised exception with its message. -/
inductive ModelOutcome
  | ok (out : ModelOut)
  | exn (message : String)
deriving Repr, DecidableEq

/-- One entry of the `segments` list (SegmentResult). -/
structure SegmentItem where
  index : ℕ
  file_name : String
  text : String
  error : Option String
  detected_language : Option String
  start_seconds : Option ℚ
  end_seconds : Option ℚ
deriving Repr, DecidableEq

/-- One entry of the `timeline_segments` list. -/
structure TimelineItem where
  index : ℕ
  segment_index : ℕ
  start_seconds : ℚ
  end_seconds : ℚ
  text : String
deriving Repr, DecidableEq

/-- The `raw_segments` loop of `_transcribe_segments`: skips entries whose
stripped text is empty, projects local times onto the global timeline,
appends timeline items (`tlLen` is the current global timeline length) and
tracks the chunk's first start and last end. -/
def processRaw (segIdx : ℕ) (offsetSeconds : ℚ) :
    List RawSeg → ℕ → Option ℚ → Option ℚ →
      (List TimelineItem × Option ℚ × Option ℚ)
  | [], _, cs, ce => ([], cs, ce)
  | rs :: rest, tlLen, cs, ce =>
      let st := pyStrip rs.text
      if st = "" then processRaw segIdx offsetSeconds rest tlLen cs ce
      else
        let globalStart := max 0 (offsetSeconds + rs.startSec)
        let globalEnd := max (globalStart + 1/100) (offsetSeconds + rs.endSec)
        let item : TimelineItem :=
          { index := tlLen + 1, segment_index := segIdx,
            start_seconds := roundTo3 globalStart,
            end_seconds := roundTo3 globalEnd, text := st }
        let cs2 := if cs = none then some globalStart else cs
        let r := processRaw segIdx offsetSeconds rest (tlLen + 1) cs2 (some globalEnd)
        (item :: r.1, r.2.1, r.2.2)

/-- The fallback duration heuristic `max(1.0, min(8.0, len(text) / 12.0))`. -/
def fallbackDurationSeconds (text : String) : ℚ :=
  max 1 (min 8 ((text.length : ℚ) / 12))

/-- The SegmentResult recorded for a successful model call (success branch of
the loop body of `_transcribe_segments`, including the no-sub-segments
fallback anchor). -/
def segItemOfOk (m : ModelOut) (idx : ℕ) (offsetSeconds : ℚ)
    (fileName : String) : SegmentItem :=
  let text := pyStrip m.rawText
  let r := processRaw idx offsetSeconds m.rawSegments 0 none none
  let cs := r.2.1
  let ce := r.2.2
  if text ≠ "" ∧ cs = none then
    { index := idx, file_name := fileName, text := text, error := none,
      detected_language := m.language,
      start_seconds := some (roundTo3 offsetSeconds),
      end_seconds :=
        some (roundTo3 (offsetSeconds + fallbackDurationSeconds text)) }
  else
    { index := idx, file_name := fileName, text := text, error := none,
      detected_language := m.language,
      start_seconds := cs.map roundTo3, end_seconds := ce.map roundTo3 }

/-- The timeline items contributed by a successful model call (same branch as
`segItemOfOk`; `tlLen` is the global timeline length before this segment). -/
def tlItemsOfOk (m : ModelOut) (idx : ℕ) (offsetSeconds : ℚ)
    (tlLen : ℕ) : List TimelineItem :=
  let text := pyStrip m.rawText
  let r := processRaw idx offsetSeconds m.rawSegments tlLen none none
  let items := r.1
  let cs := r.2.1
  if text ≠ "" ∧ cs = none then
    items ++ [{ index := tlLen + items.length + 1, segment_index := idx,
                start_seconds := roundTo3 offsetSeconds,
                end_seconds :=
                  roundTo3 (offsetSeconds + fallbackDurationSeconds text),
                text := text }]
  else items

/-- The SegmentResult recorded in the `except` branch: empty text, the error
message, and no language or timing. -/
def errorSegItem (idx : ℕ) (fileName message : String) : SegmentItem :=
  { index := idx, file_name := fileName, text := "", error := some message,
    detected_language := none, start_seconds := none, end_seconds := none }

/-- The per-segment loop of `_transcribe_segments`: 1-based index `idx`,
global timeline length `tlLen`, returning (segment items, timeline items,
full-text parts) for the remaining paths. -/
def transcribeGo (outcome : ℕ → ModelOutcome) (segmentOffsetSeconds : ℚ) :
    List String → ℕ → ℕ →
      (List SegmentItem × List TimelineItem × List String)
  | [], _, _ => ([], [], [])
  | file :: rest, idx, tlLen =>
      let offsetSeconds := max 0 segmentOffsetSeconds * ((idx : ℚ) - 1)
      match outcome idx with
      | ModelOutcome.exn e =>
          let r := transcribeGo outcome segmentOffsetSeconds rest (idx + 1) tlLen
          (errorSegItem idx file e :: r.1, r.2.1, "" :: r.2.2)
      | ModelOutcome.ok m =>
          let item := segItemOfOk m idx offsetSeconds file
          let tlItems := tlItemsOfOk m idx offsetSeconds tlLen
          let r := transcribeGo outcome segmentOffsetSeconds rest (idx + 1)
            (tlLen + tlItems.length)
          (item :: r.1, tlItems ++ r.2.1, pyStrip m.rawText :: r.2.2)

/-- The sorted unique truthy detected languages
(`sorted({... if item.get("detected_language")})`). -/
def detectedLanguagesOf (segs : List SegmentItem) : List String :=
  List.insertionSort (· ≤ ·)
    (((segs.filterMap (fun s => s.detected_language)).filter
        (fun l => l ≠ "")).dedup)

/-- Mirror of `_transcribe_segments`, with the model call abstracted by
`outcome` (indexed by the 1-based segment number). -/
def transcribeSegments (segmentPaths : List String)
    (outcome : ℕ → ModelOutcome) (segmentOffsetSeconds : ℚ) :
    List SegmentItem × List TimelineItem × String × List String :=
  let r := transcribeGo outcome segmentOffsetSeconds segmentPaths 1 0
  (r.1, r.2.1, pyStrip (String.intercalate "\n" r.2.2),
    detectedLanguagesOf r.1)

/-- The per-segment text contributed to the full-text join: the stripped
model text on success, the empty string on a raised model exception. -/
def segTextOfOutcome (outcome : ℕ → ModelOutcome) (idx : ℕ) : String :=
  match outcome idx with
  | ModelOutcome.exn _ => ""
  | ModelOutcome.ok m => pyStrip m.rawText

/-- The SegmentResult produced at 1-based index `idx` for file `p`. -/
def segItemOfOutcome (outcome : ℕ → ModelOutcome) (off : ℚ) (idx : ℕ)
    (p : String) : SegmentItem :=
  match outcome idx with
  | ModelOutcome.exn e => errorSegItem idx p e
  | ModelOutcome.ok m => segItemOfOk m idx (max 0 off * ((idx : ℚ) - 1)) p

def c3Paths : List String := ["segment_000.wav", "segment_001.wav"]

/-- Witness outcomes: segment 1 succeeds, segment 2 raises. -/
def c3Outcome : ℕ → ModelOutcome := fun idx =>
  if idx = 1 then
    ModelOutcome.ok
      { rawText := " Hello there ", language := some "en",
        rawSegments := [{ text := " Hello there ", startSec := 0, endSec := 2 }] }
  else ModelOutcome.exn "CUDA out of memory"

/-! ## Subtitle clock formatting (exporters.py) -/

def digitChar (d : ℕ) : Char := Char.ofNat (48 + d)

/-- Decimal digit characters of `n`, most significant first (no padding). -/
def natDigitsStr (n : ℕ) : List Char := ((Nat.digits 10 n).reverse).map digitChar

/-- Python `f"{n:0wd}"` zero-padding. -/
def padZeros (w : ℕ) (cs : List Char) : List Char :=
  List.replicate (w - cs.length) '0' ++ cs

/-- The formatting part of `_format_clock` on a non-negative count of whole
milliseconds: `HH:MM:SS<sep>mmm` with the source's field splits and
paddings. -/
def formatClockMs (tm : ℕ) (sep : Char) : String :=
  let hours := tm / 3600000
  let minutes := (tm % 3600000) / 60000
  let secs := (tm % 60000) / 1000
  let millis := tm % 1000
  String.mk (padZeros 2 (natDigitsStr hours) ++ [':']
    ++ padZeros 2 (natDigitsStr minutes) ++ [':']
    ++ padZeros 2 (natDigitsStr secs) ++ [sep]
    ++ padZeros 3 (natDigitsStr millis))

/-- `int(round(max(0.0, seconds) * 1000))` of `_format_clock`. -/
def totalMillisOf (seconds : ℚ) : ℤ := pythonRound (max 0 seconds * 1000)

/-- Mirror of `_format_clock` (the millisecond separator is a single
character: "," for srt, "." for vtt). -/
def formatClock (seconds : ℚ) (sep : Char) : String :=
  formatClockMs (totalMillisOf seconds).toNat sep

def parseDigit (c : Char) : Option ℕ :=
  if 48 ≤ c.toNat ∧ c.toNat ≤ 57 then some (c.toNat - 48) else none

def parseNatGo (acc : ℕ) : List Char → Option ℕ
  | [] => some acc
  | c :: rest =>
      match parseDigit c with
      | none => none
      | some d => parseNatGo (acc * 10 + d) rest

/-- Parses a non-empty run of decimal digits. -/
def parseNatChars (cs : List Char) : Option ℕ :=
  if cs.isEmpty then none else parseNatGo 0 cs

/-- Splits a character list on a separator (like Python `str.split(sep)`). -/
def splitChar (sepc : Char) : List Char → List (List Char)
  | [] => [[]]
  | c :: rest =>
      if c = sepc then [] :: splitChar sepc rest
      else
        match splitChar sepc rest with
        | [] => [[c]]
        | g :: gs => (c :: g) :: gs

/-- A correct parse of `HH:MM:SS<sep>mmm` back into whole milliseconds. -/
def parseClockMs (s : String) (sepc : Char) : Option ℕ :=
  match splitChar ':' s.data with
  | [h, m, rest] =>
      match splitChar sepc rest with
      | [sec, ms] =>
          match parseNatChars h, parseNatChars m, parseNatChars sec,
              parseNatChars ms with
          | some hv, some mv, some sv, some msv =>
              some (hv * 3600000 + mv * 60000 + sv * 1000 + msv)
          | _, _, _, _ => none
      | _ => none
  | _ => none

/-- The two timestamps of one srt block (`export_srt`: start and end each
rendered by `_format_clock(·, millisecond_separator=",")`). -/
def srtBlockTimestamps (item : TimelineItem) : String × String :=
  (formatClock item.start_seconds ',', formatClock item.end_seconds ',')

end Penman

namespace Penman

/-! ## Theorems -/

theorem clampSegmentSeconds_mem (v : ℤ) :
    1 ≤ clampSegmentSeconds v ∧ clampSegmentSeconds v ≤ 600 := by
  unfold clampSegmentSeconds ADAPTIVE_MIN_SEGMENT_SECONDS ADAPTIVE_MAX_SEGMENT_SECONDS
  omega

theorem plan_ite_effective (c : Prop) [Decidable c] (p q : SegmentationPlan) :
    (if c then p else q).effective_segment_seconds
      = if c then p.effective_segment_seconds else q.effective_segment_seconds :=
  apply_ite _ c p q

theorem buildSegmentationPlan_effective_clamped (dOpt : Option ℚ) (req : ℤ)
    (dev : String) :
    ∃ v, (buildSegmentationPlan dOpt req dev).effective_segment_seconds
      = clampSegmentSeconds v := by
  cases dOpt with
  | none => exact ⟨req, rfl⟩
  | some d0 =>
      simp only [buildSegmentationPlan, plan_ite_effective, ite_self]
      split_ifs <;> exact ⟨_, rfl⟩

/-- Claim C1: the segmentation planner is a pure function of the probed
duration, the requested chunk seconds and the resolved device.  For every
known duration d ≤ 900 s the plan never segments, regardless of device and
request; for an unknown duration it segments using the request clamped to
[1, 600]; for d ≥ 7200 on device "cpu" the effective chunk seconds is ≤ 90 and
for 3600 ≤ d < 7200 it is ≤ 120; on a non-"cpu" device it is ≥ 240 for
d ≥ 7200 and ≥ 180 for 3600 ≤ d < 7200; and in every case the effective chunk
seconds lies in [1, 600]. -/
theorem C1_segmentation_plan (d : ℚ) (req : ℤ) (dev : String) :
    (d ≤ 900 → (buildSegmentationPlan (some d) req dev).should_segment = false)
    ∧ ((buildSegmentationPlan none req dev).should_segment = true
        ∧ (buildSegmentationPlan none req dev).effective_segment_seconds
            = clampSegmentSeconds req)
    ∧ (dev = "cpu" → 7200 ≤ d →
        (buildSegmentationPlan (some d) req dev).effective_segment_seconds ≤ 90)
    ∧ (dev = "cpu" → 3600 ≤ d → d < 7200 →
        (buildSegmentationPlan (some d) req dev).effective_segment_seconds ≤ 120)
    ∧ (dev ≠ "cpu" → 7200 ≤ d →
        240 ≤ (buildSegmentationPlan (some d) req dev).effective_segment_seconds)
    ∧ (dev ≠ "cpu" → 3600 ≤ d → d < 7200 →
        180 ≤ (buildSegmentationPlan (some d) req dev).effective_segment_seconds)
    ∧ (∀ dOpt : Option ℚ,
        1 ≤ (buildSegmentationPlan dOpt req dev).effective_segment_seconds
        ∧ (buildSegmentationPlan dOpt req dev).effective_segment_seconds ≤ 600) := by
  have hclamp := clampSegmentSeconds_mem req
  have hskip : ADAPTIVE_SKIP_SEGMENT_SECONDS = (900 : ℚ) := by
    unfold ADAPTIVE_SKIP_SEGMENT_SECONDS; norm_num
  have hmed : ADAPTIVE_MEDIUM_AUDIO_SECONDS = (3600 : ℚ) := by
    unfold ADAPTIVE_MEDIUM_AUDIO_SECONDS; norm_num
  have hlong : ADAPTIVE_LONG_AUDIO_SECONDS = (7200 : ℚ) := by
    unfold ADAPTIVE_LONG_AUDIO_SECONDS; norm_num
  refine ⟨?_, ?_, ?_, ?_, ?_, ?_, ?_⟩
  · intro hd
    simp only [buildSegmentationPlan, hskip]
    rw [if_pos hd]
  · exact ⟨rfl, rfl⟩
  · intro hdev hd
    subst hdev
    have hgt : ¬ d ≤ ADAPTIVE_SKIP_SEGMENT_SECONDS := by rw [hskip]; linarith
    simp only [buildSegmentationPlan, hlong, hmed, if_neg hgt, if_pos rfl,
      if_true, if_pos hd, plan_ite_effective, ite_self]
    simp only [clampSegmentSeconds, ADAPTIVE_MIN_SEGMENT_SECONDS,
      ADAPTIVE_MAX_SEGMENT_SECONDS]
    omega
  · intro hdev hd1 hd2
    subst hdev
    have hgt : ¬ d ≤ ADAPTIVE_SKIP_SEGMENT_SECONDS := by rw [hskip]; linarith
    have hnl : ¬ ADAPTIVE_LONG_AUDIO_SECONDS ≤ d := by rw [hlong]; linarith
    have hm : ADAPTIVE_MEDIUM_AUDIO_SECONDS ≤ d := by rw [hmed]; linarith
    simp only [buildSegmentationPlan, if_neg hgt, if_pos rfl, if_true,
      if_neg hnl, if_pos hm, plan_ite_effective, ite_self]
    simp only [clampSegmentSeconds, ADAPTIVE_MIN_SEGMENT_SECONDS,
      ADAPTIVE_MAX_SEGMENT_SECONDS]
    omega
  · intro hdev hd
    have hgt : ¬ d ≤ ADAPTIVE_SKIP_SEGMENT_SECONDS := by rw [hskip]; linarith
    simp only [buildSegmentationPlan, if_neg hgt, if_neg hdev, hlong, if_pos hd,
      plan_ite_effective, ite_self]
    simp only [clampSegmentSeconds, ADAPTIVE_MIN_SEGMENT_SECONDS,
      ADAPTIVE_MAX_SEGMENT_SECONDS]
    omega
  · intro hdev hd1 hd2
    have hgt : ¬ d ≤ ADAPTIVE_SKIP_SEGMENT_SECONDS := by rw [hskip]; linarith
    have hnl : ¬ ADAPTIVE_LONG_AUDIO_SECONDS ≤ d := by rw [hlong]; linarith
    have hm : ADAPTIVE_MEDIUM_AUDIO_SECONDS ≤ d := by rw [hmed]; linarith
    simp only [buildSegmentationPlan, if_neg hgt, if_neg hdev, if_neg hnl,
      if_pos hm, plan_ite_effective, ite_self]
    simp only [clampSegmentSeconds, ADAPTIVE_MIN_SEGMENT_SECONDS,
      ADAPTIVE_MAX_SEGMENT_SECONDS]
    omega
  · intro dOpt
    obtain ⟨v, hv⟩ := buildSegmentationPlan_effective_clamped dOpt req dev
    rw [hv]
    exact clampSegmentSeconds_mem v

/-- Witness for C1 at concrete inputs: a 10-minute file never segments, an
8000-second file on cpu is capped at 90 s and on cuda floored at 240 s. -/
theorem C1_segmentation_plan_witness :
    (buildSegmentationPlan (some 600) 300 "cpu").should_segment = false
    ∧ (buildSegmentationPlan (some 8000) 300 "cpu").effective_segment_seconds ≤ 90
    ∧ 240 ≤ (buildSegmentationPlan (some 8000) 300 "cuda").effective_segment_seconds := by
  refine ⟨?_, ?_, ?_⟩
  · exact (C1_segmentation_plan 600 300 "cpu").1 (by norm_num)
  · exact (C1_segmentation_plan 8000 300 "cpu").2.2.1 rfl (by norm_num)
  · exact (C1_segmentation_plan 8000 300 "cuda").2.2.2.2.1 (by decide) (by norm_num)

/-- Claim C5: the YouTube error classifier maps "HTTP Error 429: Too Many
Requests" to category transient_rate_limit with retry_same_strategy true;
maps "This video is private" to video_unavailable with both retry flags
false; and every text matching none of the recognised patterns is classified
unknown with retry_same_strategy false and try_next_strategy true. -/
theorem C5_error_classifier :
    ((classifyError "HTTP Error 429: Too Many Requests").category
        = "transient_rate_limit"
      ∧ (classifyError "HTTP Error 429: Too Many Requests").retry_same_strategy
        = true)
    ∧ ((classifyError "This video is private").category = "video_unavailable"
      ∧ (classifyError "This video is private").retry_same_strategy = false
      ∧ (classifyError "This video is private").try_next_strategy = false)
    ∧ (∀ text, matchesAnyKnown text = false →
        classifyError text = unknownClassification) := by
  refine ⟨⟨by decide, by decide⟩, ⟨by decide, by decide, by decide⟩, ?_⟩
  intro text h
  simp only [matchesAnyKnown, Bool.or_eq_false_iff] at h
  obtain ⟨⟨⟨⟨⟨⟨⟨⟨⟨h1, h2⟩, h3⟩, h4⟩, h5⟩, h6⟩, h7⟩, h8⟩, h9⟩, h10⟩ := h
  simp [classifyError, h1, h2, h3, h4, h5, h6, h7, h8, h9, h10]

/-- Witness for C5: the unresolved-pattern branch at a concrete unmatched
diagnostic text. -/
theorem C5_error_classifier_witness :
    matchesAnyKnown "mysterious glitch" = false
    ∧ classifyError "mysterious glitch" = unknownClassification :=
  ⟨by decide, C5_error_classifier.2.2 "mysterious glitch" (by decide)⟩

/-- Claim C4: the model cache holds at most one (name, device) instance (the
state has a single slot by construction); acquiring the same key twice with
reuse=true is a cache hit the second time, returning the instance of the
first acquisition and leaving the state unchanged; acquiring with reuse=true
while a different key is cached first runs the release/memory-reclamation
hook and only then loads the new model, which becomes the sole cached
instance; acquiring with reuse=false loads a fresh model (the next mint, no
cache read) and leaves the cache fields untouched. -/
theorem getOrLoadModel_hit (n d : String) (st : ModelCacheState) (inst : ℕ)
    (hi : st.cacheInstance = some inst) (hk : st.cacheKey = some (n, d)) :
    getOrLoadModel n d true st = ({ model := inst, cacheHit := true }, st) := by
  simp [getOrLoadModel, hi, hk]

theorem getOrLoadModel_load_empty (n d : String) (st : ModelCacheState)
    (hi : st.cacheInstance = none) :
    getOrLoadModel n d true st
      = ({ model := st.nextId, cacheHit := false },
         { cacheKey := some (n, d), cacheInstance := some st.nextId,
           nextId := st.nextId + 1,
           events := st.events ++ [CacheEvent.loaded st.nextId] }) := by
  simp [getOrLoadModel, hi]

theorem getOrLoadModel_evict_load (n d : String) (st : ModelCacheState)
    (inst : ℕ) (hi : st.cacheInstance = some inst)
    (hk : st.cacheKey ≠ some (n, d)) :
    getOrLoadModel n d true st
      = ({ model := st.nextId, cacheHit := false },
         { cacheKey := some (n, d), cacheInstance := some st.nextId,
           nextId := st.nextId + 1,
           events := st.events
             ++ [CacheEvent.released, CacheEvent.loaded st.nextId] }) := by
  simp [getOrLoadModel, hi, hk]

theorem C4_model_cache (n d : String) (st : ModelCacheState) :
    ((getOrLoadModel n d true (getOrLoadModel n d true st).2).1.cacheHit = true
      ∧ (getOrLoadModel n d true (getOrLoadModel n d true st).2).1.model
          = (getOrLoadModel n d true st).1.model
      ∧ (getOrLoadModel n d true (getOrLoadModel n d true st).2).2
          = (getOrLoadModel n d true st).2)
    ∧ (∀ k inst, st.cacheKey = some k → st.cacheInstance = some inst →
        k ≠ (n, d) →
        (getOrLoadModel n d true st).1.cacheHit = false
        ∧ (getOrLoadModel n d true st).2.events
            = st.events ++ [CacheEvent.released,
                CacheEvent.loaded (getOrLoadModel n d true st).1.model]
        ∧ (getOrLoadModel n d true st).2.cacheKey = some (n, d)
        ∧ (getOrLoadModel n d true st).2.cacheInstance
            = some (getOrLoadModel n d true st).1.model)
    ∧ ((getOrLoadModel n d false st).1.cacheHit = false
        ∧ (getOrLoadModel n d false st).1.model = st.nextId
        ∧ (getOrLoadModel n d false st).2.cacheKey = st.cacheKey
        ∧ (getOrLoadModel n d false st).2.cacheInstance = st.cacheInstance
        ∧ (getOrLoadModel n d false st).2.events
            = st.events ++ [CacheEvent.loaded st.nextId]) := by
  refine ⟨?_, ?_, ?_⟩
  · cases hinst : st.cacheInstance with
    | some inst =>
        by_cases hkey : st.cacheKey = some (n, d)
        · rw [getOrLoadModel_hit n d st inst hinst hkey,
            getOrLoadModel_hit n d st inst hinst hkey]
          exact ⟨rfl, rfl, rfl⟩
        · rw [getOrLoadModel_evict_load n d st inst hinst hkey]
          rw [getOrLoadModel_hit n d _ st.nextId rfl rfl]
          exact ⟨rfl, rfl, rfl⟩
    | none =>
        rw [getOrLoadModel_load_empty n d st hinst]
        rw [getOrLoadModel_hit n d _ st.nextId rfl rfl]
        exact ⟨rfl, rfl, rfl⟩
  · intro k inst hk hi hne
    rw [getOrLoadModel_evict_load n d st inst hi (by simp [hk, hne])]
    exact ⟨rfl, rfl, rfl, rfl⟩
  · simp [getOrLoadModel]

/-- Witness for C4 at a concrete state: acquiring ("base", "cpu") after
("base", "cuda") evicts then loads. -/
theorem C4_model_cache_witness :
    (getOrLoadModel "base" "cpu" true
        ⟨some ("base", "cuda"), some 7, 8, []⟩).1.cacheHit = false
    ∧ (getOrLoadModel "base" "cpu" true
        ⟨some ("base", "cuda"), some 7, 8, []⟩).2.events
      = [CacheEvent.released, CacheEvent.loaded 8] := by
  have h := (C4_model_cache "base" "cpu"
      ⟨some ("base", "cuda"), some 7, 8, []⟩).2.1 ("base", "cuda") 7 rfl rfl
      (by decide)
  exact ⟨h.1, by simpa using h.2.1⟩

/-- Claim C10: both progress reporters never invoke an absent callback, and
every invocation they perform carries a progress value clamped into
[0, 100]; the batch-global progress forwarded by the gui worker also stays in
[0, 100] for every queue position. -/
theorem C10_progress_clamped (message : String) (progress : ℚ) :
    transcriptionReport false message progress = []
    ∧ youtubeReport false message progress = []
    ∧ (∀ call ∈ transcriptionReport true message progress,
        0 ≤ call.2 ∧ call.2 ≤ 100 ∧ call = (message, max 0 (min 100 progress)))
    ∧ (∀ call ∈ youtubeReport true message progress,
        0 ≤ call.2 ∧ call.2 ≤ 100)
    ∧ (∀ index total : ℕ, 1 ≤ index → index ≤ total →
        0 ≤ updateItemProgressGlobal index total progress
        ∧ updateItemProgressGlobal index total progress ≤ 100) := by
  have hb0 : (0 : ℚ) ≤ max 0 (min 100 progress) := le_max_left 0 _
  have hb1 : max 0 (min 100 progress) ≤ 100 :=
    max_le (by norm_num) (min_le_left 100 progress)
  refine ⟨rfl, rfl, ?_, ?_, ?_⟩
  · intro call hc
    simp only [transcriptionReport, if_true, List.mem_singleton] at hc
    subst hc
    exact ⟨hb0, hb1, rfl⟩
  · intro call hc
    simp only [youtubeReport, List.mem_singleton] at hc
    rw [if_neg (by simp)] at hc
    simp only [List.mem_singleton] at hc
    subst hc
    exact ⟨hb0, hb1⟩
  · intro index total hi hit
    have hiq : (1 : ℚ) ≤ (index : ℚ) := by exact_mod_cast hi
    have hitq : (index : ℚ) ≤ (total : ℚ) := by exact_mod_cast hit
    have htq : (0 : ℚ) < (total : ℚ) := by linarith
    constructor
    · apply div_nonneg _ (le_of_lt htq)
      nlinarith
    · rw [updateItemProgressGlobal, div_le_iff₀ htq]
      nlinarith

/-- Witness for C10 at concrete inputs: raw progress 250 on item 2 of 3 is
forwarded clamped. -/
theorem C10_progress_clamped_witness :
    transcriptionReport false "m" 250 = []
    ∧ (∀ call ∈ transcriptionReport true "m" 250,
        0 ≤ call.2 ∧ call.2 ≤ 100 ∧ call = ("m", max 0 (min 100 250)))
    ∧ (0 ≤ updateItemProgressGlobal 2 3 250
        ∧ updateItemProgressGlobal 2 3 250 ≤ 100) :=
  ⟨(C10_progress_clamped "m" 250).1,
   (C10_progress_clamped "m" 250).2.2.1,
   (C10_progress_clamped "m" 250).2.2.2.2 2 3 (by norm_num) (by norm_num)⟩

/-- Claim C8: with keep_segments=false the temporary segment directory is
removed on every exit path of `run_transcription` (the try body is an
arbitrary transformer, so normal return, raised errors and cancellation are
all covered), the body's outcome is passed through unchanged, and with
keep_segments=true the directory state is retained exactly as the body left
it. -/
theorem C8_temp_dir_cleanup (body : TempFS → RunOutcome × TempFS) (fs : TempFS) :
    (runTranscription false body fs).2.tempDir = none
    ∧ (runTranscription false body fs).1 = (body fs).1
    ∧ (runTranscription true body fs).2 = (body fs).2
    ∧ (runTranscription true body fs).1 = (body fs).1 := by
  refine ⟨?_, rfl, ?_, rfl⟩
  · simp only [runTranscription]
    split_ifs with h
    · rfl
    · simpa using h
  · simp [runTranscription]

theorem runWorkerGo_stop_spec (outcome : ℕ → ItemOutcome) (e : String) :
    ∀ (k : ℕ) (rest : List String) (idx : ℕ) (outs : List String)
      (fails : List (String × String)) (hk : k < rest.length),
      (∀ j, j < k → ∃ p, outcome (idx + j) = ItemOutcome.ok p) →
      outcome (idx + k) = ItemOutcome.err e →
      ∃ newOuts,
        runWorkerGo "stop" outcome rest idx outs fails
          = WorkerResult.batchDone (outs ++ newOuts)
              (fails ++ [(rest.get ⟨k, hk⟩, e)]) (rest.drop (k + 1)) true
        ∧ newOuts.length = k := by
  intro k
  induction k with
  | zero =>
      intro rest idx outs fails hk hok herr
      match rest with
      | item :: r2 =>
          rw [Nat.add_zero] at herr
          refine ⟨[], ?_, rfl⟩
          simp [runWorkerGo, herr]
  | succ k ih =>
      intro rest idx outs fails hk hok herr
      match rest with
      | item :: r2 =>
          obtain ⟨p, hp⟩ := hok 0 (Nat.succ_pos k)
          rw [Nat.add_zero] at hp
          have hok2 : ∀ j, j < k → ∃ q, outcome (idx + 1 + j) = ItemOutcome.ok q := by
            intro j hj
            have := hok (j + 1) (by omega)
            rwa [show idx + (j + 1) = idx + 1 + j by omega] at this
          have herr2 : outcome (idx + 1 + k) = ItemOutcome.err e := by
            rwa [show idx + (k + 1) = idx + 1 + k by omega] at herr
          have hk2 : k < r2.length := by simpa using Nat.lt_of_succ_lt_succ hk
          obtain ⟨newOuts, heq, hlen⟩ := ih r2 (idx + 1) (outs ++ [p]) fails hk2 hok2 herr2
          refine ⟨p :: newOuts, ?_, by simp [hlen]⟩
          simp only [runWorkerGo, hp]
          rw [heq]
          simp [List.append_assoc]

theorem runWorkerGo_continue_spec (runPolicy : String) (hrp : runPolicy ≠ "stop")
    (outcome : ℕ → ItemOutcome) :
    ∀ (rest : List String) (idx : ℕ) (outs : List String)
      (fails : List (String × String)),
      (∀ j, j < rest.length → outcome (idx + j) ≠ ItemOutcome.cancelled) →
      ∃ newOuts newFails,
        runWorkerGo runPolicy outcome rest idx outs fails
          = WorkerResult.batchDone (outs ++ newOuts) (fails ++ newFails) [] false
        ∧ newOuts.length = countOutcomesFrom ItemOutcome.isOk outcome idx rest.length
        ∧ newFails.length = countOutcomesFrom ItemOutcome.isErr outcome idx rest.length := by
  intro rest
  induction rest with
  | nil =>
      intro idx outs fails h
      exact ⟨[], [], by simp [runWorkerGo], by simp [countOutcomesFrom],
        by simp [countOutcomesFrom]⟩
  | cons item r2 ih =>
      intro idx outs fails h
      have h0 : outcome idx ≠ ItemOutcome.cancelled := by
        have := h 0 (by simp)
        rwa [Nat.add_zero] at this
      have hshift : ∀ j, j < r2.length → outcome (idx + 1 + j) ≠ ItemOutcome.cancelled := by
        intro j hj
        have := h (j + 1) (by simp; omega)
        rwa [show idx + (j + 1) = idx + 1 + j by omega] at this
      cases houtc : outcome idx with
      | cancelled => exact absurd houtc h0
      | ok p =>
          obtain ⟨no, nf, heq, hlo, hlf⟩ := ih (idx + 1) (outs ++ [p]) fails hshift
          refine ⟨p :: no, nf, ?_, ?_, ?_⟩
          · simp only [runWorkerGo, houtc]
            rw [heq]
            simp [List.append_assoc]
          · simp only [countOutcomesFrom, houtc, ItemOutcome.isOk]
            simp [hlo]
            omega
          · simp [countOutcomesFrom, houtc, ItemOutcome.isErr, hlf]
      | err m =>
          obtain ⟨no, nf, heq, hlo, hlf⟩ := ih (idx + 1) outs (fails ++ [(item, m)]) hshift
          refine ⟨no, (item, m) :: nf, ?_, ?_, ?_⟩
          · simp only [runWorkerGo, houtc]
            rw [if_neg hrp, heq]
            simp [List.append_assoc]
          · simp [countOutcomesFrom, houtc, ItemOutcome.isOk, hlo]
          · simp only [countOutcomesFrom, houtc, ItemOutcome.isErr]
            simp [hlf]
            omega

theorem countOutcomes_ok_add_err (outcome : ℕ → ItemOutcome) :
    ∀ (n idx : ℕ), (∀ j, j < n → outcome (idx + j) ≠ ItemOutcome.cancelled) →
      countOutcomesFrom ItemOutcome.isOk outcome idx n
        + countOutcomesFrom ItemOutcome.isErr outcome idx n = n := by
  intro n
  induction n with
  | zero => intro idx h; simp [countOutcomesFrom]
  | succ n ih =>
      intro idx h
      have h0 : outcome idx ≠ ItemOutcome.cancelled := by
        have := h 0 (Nat.succ_pos n)
        rwa [Nat.add_zero] at this
      have hshift : ∀ j, j < n → outcome (idx + 1 + j) ≠ ItemOutcome.cancelled := by
        intro j hj
        have := h (j + 1) (by omega)
        rwa [show idx + (j + 1) = idx + 1 + j by omega] at this
      have := ih (idx + 1) hshift
      cases houtc : outcome idx with
      | cancelled => exact absurd houtc h0
      | ok p => simp [countOutcomesFrom, houtc, ItemOutcome.isOk, ItemOutcome.isErr]; omega
      | err m => simp [countOutcomesFrom, houtc, ItemOutcome.isOk, ItemOutcome.isErr]; omega

/-- Claim C2: under run_policy "stop" the batch runner aborts the queue at
the first failing item — the items completed before it are the successes, the
failing item is the single failure, and exactly the items after it are
reported pending (they appear in the pending list, not among the failures);
under any other policy ("continue") every item is attempted, the success and
failure counts add up to the whole queue and nothing is pending.  In
particular, on a three-item queue where exactly item 2 fails, stop yields
success=1/failed=1/pending=1 with item3 pending, and continue yields
success=2/failed=1/pending=0. -/
theorem C2_run_policy (items : List String) (outcome : ℕ → ItemOutcome) :
    (∀ (k : ℕ) (e : String) (hk : k < items.length),
        (∀ j, j < k → ∃ p, outcome (1 + j) = ItemOutcome.ok p) →
        outcome (1 + k) = ItemOutcome.err e →
        ∃ outs, runWorker items outcome "stop"
            = WorkerResult.batchDone outs [(items.get ⟨k, hk⟩, e)]
                (items.drop (k + 1)) true
          ∧ outs.length = k)
    ∧ ((∀ j, j < items.length → outcome (1 + j) ≠ ItemOutcome.cancelled) →
        ∃ outs fails, runWorker items outcome "continue"
            = WorkerResult.batchDone outs fails [] false
          ∧ outs.length = countOutcomesFrom ItemOutcome.isOk outcome 1 items.length
          ∧ fails.length = countOutcomesFrom ItemOutcome.isErr outcome 1 items.length
          ∧ outs.length + fails.length = items.length)
    ∧ runWorker exampleQueue exampleOutcome "stop"
        = WorkerResult.batchDone ["out1"] [("item2", "boom")] ["item3"] true
    ∧ runWorker exampleQueue exampleOutcome "continue"
        = WorkerResult.batchDone ["out1", "out3"] [("item2", "boom")] [] false := by
  refine ⟨?_, ?_, by decide, by decide⟩
  · intro k e hk hok herr
    obtain ⟨newOuts, heq, hlen⟩ :=
      runWorkerGo_stop_spec outcome e k items 1 [] [] hk hok herr
    refine ⟨newOuts, ?_, hlen⟩
    simpa [runWorker] using heq
  · intro h
    obtain ⟨no, nf, heq, hlo, hlf⟩ :=
      runWorkerGo_continue_spec "continue" (by decide) outcome items 1 [] [] h
    refine ⟨no, nf, by simpa [runWorker] using heq, hlo, hlf, ?_⟩
    rw [hlo, hlf]
    exact countOutcomes_ok_add_err outcome items.length 1 h

/-- Witness for C2: the stop-policy conjunct applied to the spec's three-item
queue with item 2 failing. -/
theorem C2_run_policy_witness :
    ∃ outs, runWorker exampleQueue exampleOutcome "stop"
        = WorkerResult.batchDone outs [("item2", "boom")] ["item3"] true
      ∧ outs.length = 1 := by
  have h := (C2_run_policy exampleQueue exampleOutcome).1 1 "boom" (by decide)
    (by intro j hj; interval_cases j; exact ⟨"out1", rfl⟩) (by decide)
  simpa using h

theorem sleepTicksGo_sleep_le :
    ∀ n s, SleepEv.sleep s ∈ sleepTicksGo n → s ≤ 200 := by
  intro n
  induction n using Nat.strong_induction_on with
  | _ n ih =>
      match n with
      | 0 =>
          intro s hs
          simp [sleepTicksGo] at hs
      | n + 1 =>
          intro s hs
          rw [sleepTicksGo] at hs
          simp only [List.mem_cons] at hs
          rcases hs with hs | hs | hs
          · simp at hs
          · simp only [SleepEv.sleep.injEq] at hs
            omega
          · exact ih (n + 1 - min 200 (n + 1)) (by omega) s hs

theorem runSleepTrace_go (c : ℕ) :
    ∀ n now, now ≤ c + 200 → c < now + n →
      ∃ r, runSleepTrace c (sleepTicksGo n) now = some r ∧ r ≤ c + 200 := by
  intro n
  induction n using Nat.strong_induction_on with
  | _ n ih =>
      match n with
      | 0 =>
          intro now hle hlt
          refine ⟨now, ?_, hle⟩
          simp only [sleepTicksGo, runSleepTrace]
          rw [if_pos (by omega)]
      | n + 1 =>
          intro now hle hlt
          by_cases hc : c ≤ now
          · refine ⟨now, ?_, hle⟩
            simp only [sleepTicksGo, runSleepTrace]
            rw [if_pos hc]
          · have hs1 : 1 ≤ min 200 (n + 1) := by omega
            have hs2 : min 200 (n + 1) ≤ 200 := by omega
            have hrec := ih (n + 1 - min 200 (n + 1)) (by omega)
              (now + min 200 (n + 1)) (by omega) (by omega)
            obtain ⟨r, hr, hrle⟩ := hrec
            refine ⟨r, ?_, hrle⟩
            simp only [sleepTicksGo, runSleepTrace]
            rw [if_neg hc]
            exact hr

/-- Claim C7 counterexample: in the metadata-fetch retry loop of
`fetch_video_info` the backoff sleep is one plain `time.sleep` of the whole
delay — for retry index 0 a single uninterrupted 1200 ms sleep containing no
cancellation check at all, far coarser than the claimed 0.2 s granularity. -/
theorem C7_metadata_sleep_not_sliced :
    metadataRetrySleepTrace 0 = [SleepEv.sleep 1200]
    ∧ ¬ (∀ s, SleepEv.sleep s ∈ metadataRetrySleepTrace 0 → s ≤ 200)
    ∧ SleepEv.check ∉ metadataRetrySleepTrace 0 := by
  have hdelay : secondsToMs (retryDelaySeconds 0) = 1200 := by
    rw [retryDelaySeconds, secondsToMs]
    norm_num [BACKOFF_BASE_SECONDS, BACKOFF_MAX_SECONDS]
    decide
  refine ⟨?_, ?_, ?_⟩
  · rw [metadataRetrySleepTrace, hdelay]
  · intro h
    have := h 1200 (by rw [metadataRetrySleepTrace, hdelay]; simp)
    omega
  · rw [metadataRetrySleepTrace, hdelay]
    simp

/-- Claim C7 (amended): only the download retry loop sleeps through
`_sleep_with_cancel`; there every sleep slice is at most 0.2 s (200 ms), and
a cancellation flag set at any time strictly inside the sleep is raised at a
check no later than 0.2 s after it was set.  The metadata-fetch retry loop
instead performs the whole backoff delay as one plain sleep with no
cancellation check. -/
theorem C7_sleep_granularity (retryIdx : ℕ) :
    (∀ s, SleepEv.sleep s ∈ downloadRetrySleepTrace retryIdx → s ≤ 200)
    ∧ (∀ ms cancelAt : ℕ, cancelAt < ms →
        ∃ r, runSleepTrace cancelAt (sleepWithCancelTrace ms) 0 = some r
          ∧ r ≤ cancelAt + 200)
    ∧ metadataRetrySleepTrace retryIdx
        = [SleepEv.sleep (secondsToMs (retryDelaySeconds retryIdx))] := by
  refine ⟨?_, ?_, rfl⟩
  · intro s hs
    rw [downloadRetrySleepTrace, sleepWithCancelTrace] at hs
    split at hs
    · cases hs
    · exact sleepTicksGo_sleep_le _ s hs
  · intro ms cancelAt hc
    have hms : ¬ ms = 0 := by omega
    rw [sleepWithCancelTrace, if_neg hms]
    exact runSleepTrace_go cancelAt ms 0 (by omega) (by omega)

/-- Witness for the amended C7: a cancellation set 0.5 s into a 1.2 s
backoff sleep is raised within 0.2 s. -/
theorem C7_sleep_granularity_witness :
    ∃ r, runSleepTrace 500 (sleepWithCancelTrace 1200) 0 = some r
      ∧ r ≤ 700 :=
  (C7_sleep_granularity 0).2.1 1200 500 (by norm_num)

theorem shallowCopy_eq (d : PyDict) : shallowCopy d = d := by
  simp [shallowCopy]

/-- Claim C6 counterexample: the cache stores and returns `dict(info)` — a
top-level copy only.  Concretely, for a stored dict holding a reference to a
nested mutable dict, the value returned by get shares that reference, and a
mutation at nesting depth 2 performed through the shared reference changes
what the cached entry resolves to.  So mutating the returned value does
affect the stored value: the copy is not deep. -/
theorem C6_not_deep_copy :
    (getCachedVideoInfo 60 0 "u"
        (setCachedVideoInfo 60 0 "u" c6Info emptyMetadataCache)).1
      = some c6Info
    ∧ PyVal.ref 0 ∈ c6Info.map Prod.snd
    ∧ resolveDict c6Heap0 2 c6Info ≠ resolveDict c6Heap1 2 c6Info := by
  have hkey : normalizeCacheKey "u" = "u" := rfl
  refine ⟨?_, by decide, ?_⟩
  · have hne : ("u" : String) ≠ "" := by decide
    have h60 : (60 : ℕ) ≠ 0 := by decide
    simp only [getCachedVideoInfo, setCachedVideoInfo, purgeExpiredMetadataCache,
      emptyMetadataCache, hkey, if_neg hne, if_neg h60, eq_self_iff_true,
      if_true, shallowCopy_eq]
    norm_num
  have h0 : resolveDict c6Heap0 2 c6Info
      = [("nested", PyTree.dict [("x", PyTree.prim 1)])] := rfl
  have h1 : resolveDict c6Heap1 2 c6Info
      = [("nested", PyTree.dict [("x", PyTree.prim 2)])] := rfl
  rw [h0, h1]
  simp

/-- Claim C6 (amended): after `set_cached_video_info(url, info)` at time t0,
`get_cached_video_info(url)` at any time t with elapsed t - t0 at most the
configured TTL returns a value equal to info (a fresh top-level mapping,
though nested mutable values are shared rather than deep-copied); once the
elapsed time strictly exceeds the TTL the entry is purged lazily and get
returns none. -/
theorem C6_metadata_cache_ttl (configTtl : ℤ) (hc : 0 < configTtl)
    (t0 t : ℚ) (url : String) (info : PyDict) (c : MetadataCache)
    (hurl : normalizeCacheKey url ≠ "") :
    ((t - t0 ≤ (METADATA_CACHE_TTL_SECONDS configTtl : ℚ)) →
      (getCachedVideoInfo (METADATA_CACHE_TTL_SECONDS configTtl) t url
          (setCachedVideoInfo (METADATA_CACHE_TTL_SECONDS configTtl) t0 url
            info c)).1 = some info)
    ∧ (((METADATA_CACHE_TTL_SECONDS configTtl : ℚ) < t - t0) →
      (getCachedVideoInfo (METADATA_CACHE_TTL_SECONDS configTtl) t url
          (setCachedVideoInfo (METADATA_CACHE_TTL_SECONDS configTtl) t0 url
            info c)).1 = none) := by
  have httl : METADATA_CACHE_TTL_SECONDS configTtl ≠ 0 := by
    simp only [METADATA_CACHE_TTL_SECONDS]
    omega
  constructor
  · intro hfresh
    have hcond : ¬ ((METADATA_CACHE_TTL_SECONDS configTtl : ℚ) < t - t0) := by
      push_neg
      linarith
    simp only [setCachedVideoInfo, getCachedVideoInfo, purgeExpiredMetadataCache,
      if_neg hurl, if_neg httl, eq_self_iff_true, if_true, if_neg hcond,
      shallowCopy_eq]
  · intro hstale
    simp only [setCachedVideoInfo, getCachedVideoInfo, purgeExpiredMetadataCache,
      if_neg hurl, if_neg httl, eq_self_iff_true, if_true, if_pos hstale]

/-- Witness for the amended C6 at concrete inputs: TTL 60 s, set at t=0,
read at t=30 (hit) and t=61 (purged). -/
theorem C6_metadata_cache_ttl_witness :
    ((getCachedVideoInfo (METADATA_CACHE_TTL_SECONDS 60) 30 "u"
        (setCachedVideoInfo (METADATA_CACHE_TTL_SECONDS 60) 0 "u"
          c6Info emptyMetadataCache)).1 = some c6Info)
    ∧ ((getCachedVideoInfo (METADATA_CACHE_TTL_SECONDS 60) 61 "u"
        (setCachedVideoInfo (METADATA_CACHE_TTL_SECONDS 60) 0 "u"
          c6Info emptyMetadataCache)).1 = none) :=
  ⟨(C6_metadata_cache_ttl 60 (by norm_num) 0 30 "u" c6Info emptyMetadataCache
      (by decide)).1 (by norm_num [METADATA_CACHE_TTL_SECONDS]),
   (C6_metadata_cache_ttl 60 (by norm_num) 0 61 "u" c6Info emptyMetadataCache
      (by decide)).2 (by norm_num [METADATA_CACHE_TTL_SECONDS])⟩

theorem segItemOfOutcome_index (outcome : ℕ → ModelOutcome) (off : ℚ)
    (idx : ℕ) (p : String) : (segItemOfOutcome outcome off idx p).index = idx := by
  cases houtc : outcome idx with
  | exn e => simp [segItemOfOutcome, houtc, errorSegItem]
  | ok m =>
      simp only [segItemOfOutcome, houtc, segItemOfOk]
      split_ifs <;> rfl

theorem segItemOfOutcome_file (outcome : ℕ → ModelOutcome) (off : ℚ)
    (idx : ℕ) (p : String) :
    (segItemOfOutcome outcome off idx p).file_name = p := by
  cases houtc : outcome idx with
  | exn e => simp [segItemOfOutcome, houtc, errorSegItem]
  | ok m =>
      simp only [segItemOfOutcome, houtc, segItemOfOk]
      split_ifs <;> rfl

theorem transcribeGo_segs_length (outcome : ℕ → ModelOutcome) (off : ℚ) :
    ∀ (paths : List String) (idx tlLen : ℕ),
      (transcribeGo outcome off paths idx tlLen).1.length = paths.length := by
  intro paths
  induction paths with
  | nil => intro idx tlLen; simp [transcribeGo]
  | cons file rest ih =>
      intro idx tlLen
      cases houtc : outcome idx with
      | exn e => simp [transcribeGo, houtc, ih]
      | ok m => simp [transcribeGo, houtc, ih]

theorem transcribeGo_segs_get? (outcome : ℕ → ModelOutcome) (off : ℚ) :
    ∀ (paths : List String) (idx tlLen j : ℕ),
      (transcribeGo outcome off paths idx tlLen).1.get? j
        = (paths.get? j).map (fun p => segItemOfOutcome outcome off (idx + j) p) := by
  intro paths
  induction paths with
  | nil => intro idx tlLen j; simp [transcribeGo]
  | cons file rest ih =>
      intro idx tlLen j
      cases houtc : outcome idx with
      | exn e =>
          cases j with
          | zero => simp [transcribeGo, houtc, segItemOfOutcome]
          | succ j =>
              simp only [transcribeGo, houtc, List.get?_cons_succ]
              rw [ih (idx + 1) tlLen j,
                show idx + 1 + j = idx + (j + 1) by omega]
      | ok m =>
          cases j with
          | zero => simp [transcribeGo, houtc, segItemOfOutcome]
          | succ j =>
              simp only [transcribeGo, houtc, List.get?_cons_succ]
              rw [ih (idx + 1) _ j, show idx + 1 + j = idx + (j + 1) by omega]

theorem transcribeGo_parts (outcome : ℕ → ModelOutcome) (off : ℚ) :
    ∀ (paths : List String) (idx tlLen : ℕ),
      (transcribeGo outcome off paths idx tlLen).2.2
        = (List.range' idx paths.length).map (segTextOfOutcome outcome) := by
  intro paths
  induction paths with
  | nil => intro idx tlLen; simp [transcribeGo]
  | cons file rest ih =>
      intro idx tlLen
      cases houtc : outcome idx with
      | exn e =>
          simp only [transcribeGo, houtc, List.length_cons, List.range'_succ,
            List.map_cons]
          rw [ih (idx + 1) tlLen]
          simp [segTextOfOutcome, houtc]
      | ok m =>
          simp only [transcribeGo, houtc, List.length_cons, List.range'_succ,
            List.map_cons]
          rw [ih (idx + 1) _]
          simp [segTextOfOutcome, houtc]

/-- Claim C3: the segment transcriber produces exactly one SegmentResult per
input segment, in input order (the j-th result has index j+1 and the j-th
file name); when the model call for a segment raises, the recorded result
has empty text and the error message (with no language or timing), an empty
string is contributed to the full-text parts, and the following segments are
still processed; and the full text equals the newline-join of the
per-segment texts in order, stripped. -/
theorem C3_segment_transcriber (paths : List String)
    (outcome : ℕ → ModelOutcome) (off : ℚ) :
    ((transcribeSegments paths outcome off).1.length = paths.length)
    ∧ (∀ j p, paths.get? j = some p →
        (transcribeSegments paths outcome off).1.get? j
          = some (segItemOfOutcome outcome off (1 + j) p)
        ∧ (segItemOfOutcome outcome off (1 + j) p).index = 1 + j
        ∧ (segItemOfOutcome outcome off (1 + j) p).file_name = p)
    ∧ (∀ j p e, paths.get? j = some p → outcome (1 + j) = ModelOutcome.exn e →
        (transcribeSegments paths outcome off).1.get? j
          = some (errorSegItem (1 + j) p e))
    ∧ ((transcribeSegments paths outcome off).2.2.1
        = pyStrip (String.intercalate "\n"
            ((List.range' 1 paths.length).map (segTextOfOutcome outcome)))) := by
  refine ⟨?_, ?_, ?_, ?_⟩
  · exact transcribeGo_segs_length outcome off paths 1 0
  · intro j p hp
    refine ⟨?_, segItemOfOutcome_index outcome off (1 + j) p,
      segItemOfOutcome_file outcome off (1 + j) p⟩
    have h := transcribeGo_segs_get? outcome off paths 1 0 j
    rw [hp] at h
    exact h
  · intro j p e hp he
    have h := transcribeGo_segs_get? outcome off paths 1 0 j
    rw [hp] at h
    simp only [Option.map_some'] at h
    have h2 : segItemOfOutcome outcome off (1 + j) p = errorSegItem (1 + j) p e := by
      simp [segItemOfOutcome, he]
    rw [h2] at h
    exact h
  · have h := transcribeGo_parts outcome off paths 1 0
    show pyStrip (String.intercalate "\n" (transcribeGo outcome off paths 1 0).2.2) = _
    rw [h]

/-- Witness for C3 at a concrete two-segment run whose second model call
raises: the second result is the error record. -/
theorem C3_segment_transcriber_witness :
    (transcribeSegments c3Paths c3Outcome 300).1.get? 1
      = some (errorSegItem 2 "segment_001.wav" "CUDA out of memory") :=
  (C3_segment_transcriber c3Paths c3Outcome 300).2.2.1 1 "segment_001.wav"
    "CUDA out of memory" (by decide) (by decide)

theorem parseDigit_digitChar : ∀ d, d < 10 → parseDigit (digitChar d) = some d := by
  decide

theorem digitChar_toNat : ∀ d, d < 10 → (digitChar d).toNat = 48 + d := by
  decide

theorem parseNatGo_append (xs ys : List Char) :
    ∀ a : ℕ, parseNatGo a (xs ++ ys)
      = match parseNatGo a xs with
        | none => none
        | some b => parseNatGo b ys := by
  induction xs with
  | nil => intro a; simp [parseNatGo]
  | cons c rest ih =>
      intro a
      cases hd : parseDigit c with
      | none => simp [parseNatGo, hd]
      | some d => simp [parseNatGo, hd, ih]

theorem parseNatGo_digits (l : List ℕ) (hl : ∀ d ∈ l, d < 10) :
    ∀ a : ℕ, parseNatGo a (l.reverse.map digitChar)
      = some (a * 10 ^ l.length + Nat.ofDigits 10 l) := by
  induction l with
  | nil => intro a; simp [parseNatGo, Nat.ofDigits]
  | cons d t ih =>
      intro a
      have hd : d < 10 := hl d (List.mem_cons_self d t)
      have ht : ∀ x ∈ t, x < 10 := fun x hx => hl x (List.mem_cons_of_mem d hx)
      simp only [List.reverse_cons, List.map_append, List.map_cons, List.map_nil]
      rw [parseNatGo_append]
      rw [ih ht a]
      simp only [parseNatGo, parseDigit_digitChar d hd, Nat.ofDigits_cons,
        List.length_cons]
      congr 1
      ring

theorem parseNatGo_replicate_zero (cs : List Char) :
    ∀ k, parseNatGo 0 (List.replicate k '0' ++ cs) = parseNatGo 0 cs := by
  intro k
  induction k with
  | zero => simp
  | succ k ih =>
      have h0 : parseDigit '0' = some 0 := by decide
      simp only [List.replicate_succ, List.cons_append, parseNatGo, h0]
      exact ih

theorem padZeros_ne_nil (w n : ℕ) (hw : 1 ≤ w) :
    padZeros w (natDigitsStr n) ≠ [] := by
  intro h
  rw [padZeros, List.append_eq_nil] at h
  rcases h with ⟨h1, h2⟩
  rw [h2] at h1
  simp [List.replicate_eq_nil_iff] at h1
  omega

theorem parseNatChars_pad (w n : ℕ) (hw : 1 ≤ w) :
    parseNatChars (padZeros w (natDigitsStr n)) = some n := by
  rw [parseNatChars,
    if_neg (by simpa [List.isEmpty_iff] using padZeros_ne_nil w n hw)]
  rw [padZeros, parseNatGo_replicate_zero]
  rw [natDigitsStr, parseNatGo_digits (Nat.digits 10 n)
    (fun d hd => Nat.digits_lt_base (by norm_num) hd) 0]
  simp [Nat.ofDigits_digits]

theorem mem_padZeros_toNat (w n : ℕ) (c : Char)
    (hc : c ∈ padZeros w (natDigitsStr n)) : 48 ≤ c.toNat ∧ c.toNat ≤ 57 := by
  rw [padZeros] at hc
  rcases List.mem_append.mp hc with h | h
  · have h0 : c = '0' := List.eq_of_mem_replicate h
    subst h0
    decide
  · rw [natDigitsStr] at h
    obtain ⟨d, hd, rfl⟩ := List.mem_map.mp h
    have hd10 : d < 10 := Nat.digits_lt_base (by norm_num)
      (List.mem_reverse.mp hd)
    rw [digitChar_toNat d hd10]
    omega

theorem colon_not_mem_pad (w n : ℕ) : ':' ∉ padZeros w (natDigitsStr n) := by
  intro h
  have hb := mem_padZeros_toNat w n _ h
  have h58 : (':').toNat = 58 := by decide
  omega

theorem comma_not_mem_pad (w n : ℕ) : ',' ∉ padZeros w (natDigitsStr n) := by
  intro h
  have hb := mem_padZeros_toNat w n _ h
  have h44 : (',').toNat = 44 := by decide
  omega

theorem splitChar_not_mem (sepc : Char) :
    ∀ xs : List Char, sepc ∉ xs → splitChar sepc xs = [xs] := by
  intro xs
  induction xs with
  | nil => intro h; rfl
  | cons c rest ih =>
      intro h
      have hc : ¬ c = sepc := fun hc => h (hc ▸ List.mem_cons_self c rest)
      have hr : sepc ∉ rest := fun hr => h (List.mem_cons_of_mem c hr)
      simp only [splitChar, if_neg hc, ih hr]

theorem splitChar_append (sepc : Char) :
    ∀ (xs ys : List Char), sepc ∉ xs →
      splitChar sepc (xs ++ sepc :: ys) = xs :: splitChar sepc ys := by
  intro xs
  induction xs with
  | nil =>
      intro ys h
      simp [splitChar]
  | cons c rest ih =>
      intro ys h
      have hc : ¬ c = sepc := fun hc => h (hc ▸ List.mem_cons_self c rest)
      have hr : sepc ∉ rest := fun hr => h (List.mem_cons_of_mem c hr)
      simp only [List.cons_append, splitChar, List.append_eq, if_neg hc,
        ih ys hr]

theorem formatClockMs_data (tm : ℕ) (sep : Char) :
    (formatClockMs tm sep).data
      = padZeros 2 (natDigitsStr (tm / 3600000))
        ++ ':' :: (padZeros 2 (natDigitsStr ((tm % 3600000) / 60000))
        ++ ':' :: (padZeros 2 (natDigitsStr ((tm % 60000) / 1000))
        ++ sep :: padZeros 3 (natDigitsStr (tm % 1000)))) := by
  simp [formatClockMs, List.append_assoc]

theorem parseClockMs_formatClockMs (tm : ℕ) :
    parseClockMs (formatClockMs tm ',') ',' = some tm := by
  have hco : (',' : Char) ≠ ':' := by decide
  have hS : (':') ∉ (padZeros 2 (natDigitsStr ((tm % 60000) / 1000))
      ++ ',' :: padZeros 3 (natDigitsStr (tm % 1000))) := by
    intro h
    rcases List.mem_append.mp h with h | h
    · exact colon_not_mem_pad 2 _ h
    · rcases List.mem_cons.mp h with h | h
      · exact absurd h.symm hco
      · exact colon_not_mem_pad 3 _ h
  rw [parseClockMs, formatClockMs_data]
  rw [splitChar_append ':' _ _ (colon_not_mem_pad 2 _)]
  rw [splitChar_append ':' _ _ (colon_not_mem_pad 2 _)]
  rw [splitChar_not_mem ':' _ hS]
  simp only []
  rw [splitChar_append ',' _ _ (comma_not_mem_pad 2 _)]
  rw [splitChar_not_mem ',' _ (comma_not_mem_pad 3 _)]
  simp only []
  rw [parseNatChars_pad 2 _ (by norm_num), parseNatChars_pad 2 _ (by norm_num),
    parseNatChars_pad 2 _ (by norm_num), parseNatChars_pad 3 _ (by norm_num)]
  simp only []
  congr 1
  omega

/-- Claim C9: for every non-negative timestamp, the clock formatter of the
srt exporter produces `HH:MM:SS,mmm` whose correct re-parse recovers exactly
`round(seconds * 1000)` milliseconds (and that rounded count is
non-negative); hence both timestamps of every srt block whose timeline item
has non-negative start/end round-trip at millisecond precision. -/
theorem C9_srt_clock_roundtrip :
    (∀ seconds : ℚ, 0 ≤ seconds →
      parseClockMs (formatClock seconds ',') ','
          = some (pythonRound (seconds * 1000)).toNat
        ∧ 0 ≤ pythonRound (seconds * 1000))
    ∧ (∀ item : TimelineItem,
        0 ≤ item.start_seconds → 0 ≤ item.end_seconds →
        parseClockMs (srtBlockTimestamps item).1 ','
            = some (pythonRound (item.start_seconds * 1000)).toNat
          ∧ parseClockMs (srtBlockTimestamps item).2 ','
            = some (pythonRound (item.end_seconds * 1000)).toNat) := by
  have key : ∀ seconds : ℚ, 0 ≤ seconds →
      parseClockMs (formatClock seconds ',') ','
          = some (pythonRound (seconds * 1000)).toNat
        ∧ 0 ≤ pythonRound (seconds * 1000) := by
    intro seconds hs
    have hmax : max 0 seconds = seconds := max_eq_right hs
    have hpos : 0 ≤ pythonRound (seconds * 1000) := by
      have hq : (0 : ℚ) ≤ seconds * 1000 := by positivity
      have hfl : (0 : ℤ) ≤ ⌊seconds * 1000⌋ := Int.floor_nonneg.mpr hq
      rw [pythonRound]
      split_ifs <;> omega
    constructor
    · rw [formatClock, totalMillisOf, hmax, parseClockMs_formatClockMs]
    · exact hpos
  refine ⟨key, ?_⟩
  intro item h1 h2
  exact ⟨(key item.start_seconds h1).1, (key item.end_seconds h2).1⟩

/-- Witness for C9 at the concrete timestamp 3.5 s (3500 ms). -/
theorem C9_srt_clock_roundtrip_witness :
    parseClockMs (formatClock (7/2) ',') ','
        = some (pythonRound ((7/2 : ℚ) * 1000)).toNat
      ∧ 0 ≤ pythonRound ((7/2 : ℚ) * 1000) :=
  C9_srt_clock_roundtrip.1 (7/2) (by norm_num)

end Penman
